import Mathlib

/-!
Verification development for the llm-wrapper gateway.

This file gives a shallow embedding, in Lean 4, of the core logic of the
repository (the `KeyRotator`, the `BaseProvider` retry loop, the
OllamaCloud tool-call emulation layer, and the two adapters' error
classifiers), together with theorems settling the specification claims
about that logic.

Modelling conventions:
 - JavaScript values that may be `undefined` are modelled with `Option`;
   `none` stands for `undefined` (and, where noted, for `null`).
 - Thrown JS errors are modelled with `Except` or with `Option`-valued
   results, as indicated at each definition.
 - `JSON.parse` / `JSON.stringify` are modelled by an executable JSON
   parser and printer over an explicit `Json` AST.  JSON numbers are
   modelled as integers (no fractional or exponent numerals appear in any
   input considered here), and `\u` escapes are decoded to the scalar
   value when it is a valid Unicode scalar.
 - `Date.now()`-derived ids and token-usage placeholders carry no
   information relevant to any claim and are left out of the response
   model.
-/

namespace LlmWrapper

/-- JSON value AST, the result type of the modelled `JSON.parse`. -/
inductive Json where
  | null : Json
  | bool (b : Bool) : Json
  | num (n : Int) : Json
  | str (s : String) : Json
  | arr (elems : List Json) : Json
  | obj (fields : List (String × Json)) : Json
deriving Repr

/-- JS property read `obj[k]` on a parsed JSON value: objects yield the value
of the *last* binding for the key (as `JSON.parse` keeps the last duplicate);
every non-object (except `null`, which throws and is handled by the caller)
yields `undefined`, i.e. `none`. -/
def Json.getField : Json → String → Option Json
  | .obj fields, k => (fields.filter (fun kv => kv.1 == k)).getLast?.map (·.2)
  | _, _ => none

/-- JS truthiness of a possibly-`undefined` JSON value: `undefined`, `null`,
`false`, `0` and `""` are falsy, everything else truthy. -/
def jsTruthy : Option Json → Bool
  | none => false
  | some .null => false
  | some (.bool b) => b
  | some (.num n) => n != 0
  | some (.str s) => s != ""
  | some (.arr _) => true
  | some (.obj _) => true

/-- Escape one character the way `JSON.stringify` does (common escapes;
other characters are emitted verbatim). -/
def jsonEscapeChar (c : Char) : String :=
  if c = '"' then "\\\""
  else if c = '\\' then "\\\\"
  else if c = '\n' then "\\n"
  else if c = '\t' then "\\t"
  else if c = '\r' then "\\r"
  else String.singleton c

def jsonEscape (s : String) : String :=
  String.join (s.toList.map jsonEscapeChar)

/-- Model of `JSON.stringify` (no spacing, insertion order preserved). -/
def jsonStringify : Json → String
  | .null => "null"
  | .bool true => "true"
  | .bool false => "false"
  | .num n => toString n
  | .str s => "\"" ++ jsonEscape s ++ "\""
  | .arr elems => "[" ++ stringifySeq elems ++ "]"
  | .obj fields => "\x7b" ++ stringifyFields fields ++ "\x7d"
where
  stringifySeq : List Json → String
    | [] => ""
    | [x] => jsonStringify x
    | x :: y :: xs => jsonStringify x ++ "," ++ stringifySeq (y :: xs)
  stringifyFields : List (String × Json) → String
    | [] => ""
    | [(k, v)] => "\"" ++ jsonEscape k ++ "\":" ++ jsonStringify v
    | (k, v) :: y :: xs =>
        "\"" ++ jsonEscape k ++ "\":" ++ jsonStringify v ++ "," ++ stringifyFields (y :: xs)

/-! ### A model of `JSON.parse`

An executable recursive-descent parser over `List Char`, with a fuel
parameter for termination.  It accepts exactly the JSON grammar, except
that numbers are restricted to (optionally signed) integer numerals. -/

/-- JSON insignificant whitespace (also the characters the `\s` regex class
and `String.prototype.trim` treat as whitespace that occur in this
development). -/
def isJsonWs (c : Char) : Bool :=
  c = ' ' || c = '\t' || c = '\n' || c = '\r'

def skipWs : List Char → List Char
  | [] => []
  | c :: cs => if isJsonWs c then skipWs cs else c :: cs

/-- Model of `String.prototype.trim`: strip whitespace from both ends. -/
def jsTrim (s : String) : String :=
  String.mk (((s.toList.dropWhile isJsonWs).reverse.dropWhile isJsonWs).reverse)

/-- Model of `String.prototype.toLowerCase` (ASCII case mapping). -/
def jsToLower (s : String) : String :=
  String.mk (s.toList.map Char.toLower)

def hexDigitVal (c : Char) : Option Nat :=
  if '0' ≤ c ∧ c ≤ '9' then some (c.toNat - '0'.toNat)
  else if 'a' ≤ c ∧ c ≤ 'f' then some (c.toNat - 'a'.toNat + 10)
  else if 'A' ≤ c ∧ c ≤ 'F' then some (c.toNat - 'A'.toNat + 10)
  else none

/-- Parse the body of a JSON string after the opening quote; returns the
decoded characters and the remaining input after the closing quote.
Fuelled for termination; callers supply fuel at least the input length
plus one, which is always sufficient (each step consumes a character). -/
def parseStringBody : Nat → List Char → Option (List Char × List Char)
  | 0, _ => none
  | _, [] => none
  | fuel + 1, c :: cs =>
    if c = '"' then some ([], cs)
    else if c = '\\' then
      match cs with
      | [] => none
      | e :: cs₂ =>
        let dec : Option (Char × List Char) :=
          if e = '"' then some ('"', cs₂)
          else if e = '\\' then some ('\\', cs₂)
          else if e = '/' then some ('/', cs₂)
          else if e = 'n' then some ('\n', cs₂)
          else if e = 't' then some ('\t', cs₂)
          else if e = 'r' then some ('\r', cs₂)
          else if e = 'b' then some ('\x08', cs₂)
          else if e = 'f' then some ('\x0c', cs₂)
          else if e = 'u' then
            match cs₂ with
            | h₁ :: h₂ :: h₃ :: h₄ :: cs₃ =>
              match hexDigitVal h₁, hexDigitVal h₂, hexDigitVal h₃, hexDigitVal h₄ with
              | some a, some b, some c', some d =>
                  some (Char.ofNat (((a * 16 + b) * 16 + c') * 16 + d), cs₃)
              | _, _, _, _ => none
            | _ => none
          else none
        match dec with
        | some (ch, rest) =>
          match parseStringBody fuel rest with
          | some (body, rest₂) => some (ch :: body, rest₂)
          | none => none
        | none => none
    else if c.toNat < 0x20 then none
    else
      match parseStringBody fuel cs with
      | some (body, rest) => some (c :: body, rest)
      | none => none

def takeDigits : List Char → List Char × List Char
  | [] => ([], [])
  | c :: cs =>
    if c.isDigit then
      let (ds, rest) := takeDigits cs
      (c :: ds, rest)
    else ([], c :: cs)

def digitsToNat (acc : Nat) : List Char → Nat
  | [] => acc
  | c :: cs => digitsToNat (acc * 10 + (c.toNat - '0'.toNat)) cs

/-- Parse a JSON integer numeral (`-?(0|[1-9][0-9]*)`). -/
def parseIntNumeral (cs : List Char) : Option (Int × List Char) :=
  let (neg, cs₁) : Bool × List Char :=
    match cs with
    | '-' :: rest => (true, rest)
    | _ => (false, cs)
  match takeDigits cs₁ with
  | ([], _) => none
  | (d :: ds, rest) =>
    if d = '0' ∧ ds ≠ [] then none
    else
      let n : Int := Int.ofNat (digitsToNat 0 (d :: ds))
      some (if neg then -n else n, rest)

mutual

/-- Parse one JSON value, skipping leading whitespace. -/
def parseValue : Nat → List Char → Option (Json × List Char)
  | 0, _ => none
  | fuel + 1, cs =>
    match skipWs cs with
    | [] => none
    | c :: rest =>
      if c = 'n' then
        match rest with
        | 'u' :: 'l' :: 'l' :: rest₂ => some (.null, rest₂)
        | _ => none
      else if c = 't' then
        match rest with
        | 'r' :: 'u' :: 'e' :: rest₂ => some (.bool true, rest₂)
        | _ => none
      else if c = 'f' then
        match rest with
        | 'a' :: 'l' :: 's' :: 'e' :: rest₂ => some (.bool false, rest₂)
        | _ => none
      else if c = '"' then
        match parseStringBody (rest.length + 1) rest with
        | some (body, rest₂) => some (.str (String.mk body), rest₂)
        | none => none
      else if c = '\x7b' then
        match skipWs rest with
        | '\x7d' :: rest₂ => some (.obj [], rest₂)
        | other => parseMembers fuel other []
      else if c = '[' then
        match skipWs rest with
        | ']' :: rest₂ => some (.arr [], rest₂)
        | other => parseElems fuel other []
      else if c = '-' ∨ c.isDigit then
        match parseIntNumeral (c :: rest) with
        | some (n, rest₂) => some (.num n, rest₂)
        | none => none
      else none

/-- Parse the members of a JSON object after `{` (input positioned at the
first key), accumulating parsed bindings in reverse. -/
def parseMembers : Nat → List Char → List (String × Json) → Option (Json × List Char)
  | 0, _, _ => none
  | fuel + 1, cs, acc =>
    match cs with
    | '"' :: rest =>
      match parseStringBody (rest.length + 1) rest with
      | some (key, rest₂) =>
        match skipWs rest₂ with
        | ':' :: rest₃ =>
          match parseValue fuel rest₃ with
          | some (v, rest₄) =>
            match skipWs rest₄ with
            | ',' :: rest₅ => parseMembers fuel (skipWs rest₅) ((String.mk key, v) :: acc)
            | '\x7d' :: rest₅ => some (.obj ((String.mk key, v) :: acc).reverse, rest₅)
            | _ => none
          | none => none
        | _ => none
      | none => none
    | _ => none

/-- Parse the elements of a JSON array after `[` (input positioned at the
first element), accumulating parsed elements in reverse. -/
def parseElems : Nat → List Char → List Json → Option (Json × List Char)
  | 0, _, _ => none
  | fuel + 1, cs, acc =>
    match parseValue fuel cs with
    | some (v, rest) =>
      match skipWs rest with
      | ',' :: rest₂ => parseElems fuel rest₂ (v :: acc)
      | ']' :: rest₂ => some (.arr (v :: acc).reverse, rest₂)
      | _ => none
    | none => none

end

/-- Model of `JSON.parse`: parse one value and require only whitespace to
follow; any violation of the grammar is a thrown `SyntaxError`, modelled as
`none`. -/
def jsonParse (s : String) : Option Json :=
  let cs := s.toList
  match parseValue (2 * cs.length + 2) cs with
  | some (v, rest) => if (skipWs rest).isEmpty then some v else none
  | none => none

/-! ### Models of the two regular expressions in `parseToolCallResponse`

The fenced-code-block search models the JS regex
match against three backticks, an optional literal tag, optional
whitespace, a lazily-matched brace-delimited capture, optional whitespace
and three closing backticks: leftmost match start, shortest (lazy)
capture.  The brace-span search models the greedy JS regex matching from
the first opening brace to the last closing brace of the text. -/

/-- Consume the literal tag `json` when present (the optional group of the
fenced-block regex; when the tag is present the branch not consuming it can
never lead to a match, so deterministic consumption is equivalent). -/
def stripJsonTag : List Char → List Char
  | 'j' :: 's' :: 'o' :: 'n' :: rest => rest
  | cs => cs

/-- Does the input begin with optional whitespace followed by three
backticks (the tail of the fenced-block pattern after the captured `}`)? -/
def isFenceClose (cs : List Char) : Bool :=
  match skipWs cs with
  | '\x60' :: '\x60' :: '\x60' :: _ => true
  | _ => false

/-- Lazy scan for the end of the capture group: the capture ends at the
first `}` that is followed by whitespace and three backticks; any earlier
`}` not so followed is swallowed by the lazy any-character group.
`acc` holds the capture so far, reversed. -/
def lazyBraceCapture (acc : List Char) : List Char → Option (List Char)
  | [] => none
  | c :: rest =>
    if c = '\x7d' && isFenceClose rest then some ((c :: acc).reverse)
    else lazyBraceCapture (c :: acc) rest

/-- Try to match the fenced-block pattern starting exactly at the head of
the input; on success return the capture group (braces included). -/
def fencedAt (cs : List Char) : Option (List Char) :=
  match cs with
  | '\x60' :: '\x60' :: '\x60' :: rest =>
    match skipWs (stripJsonTag rest) with
    | '\x7b' :: body => lazyBraceCapture ['\x7b'] body
    | _ => none
  | _ => none

/-- Leftmost-match search for the fenced-block pattern. -/
def fencedSearch : List Char → Option (List Char)
  | [] => none
  | c :: rest =>
    match fencedAt (c :: rest) with
    | some cap => some cap
    | none => fencedSearch rest

def fencedCapture (s : String) : Option String :=
  (fencedSearch s.toList).map String.mk

/-- Greedy brace-span regex: matches from the first `{` of the text to the
last `}` (which must come after it); `none` when no such span exists. -/
def braceSpan (cs : List Char) : Option (List Char) :=
  let fromBrace := cs.dropWhile (fun c => c ≠ '\x7b')
  let revSpan := fromBrace.reverse.dropWhile (fun c => c ≠ '\x7d')
  if revSpan.isEmpty then none else some revSpan.reverse

def braceSpanStr (s : String) : Option String :=
  (braceSpan s.toList).map String.mk

/-! ### The tool-call emulation decoder (`OllamaCloudProvider`) -/

/-- The emulated tool invocation carried by a decoded tool-call choice:
`name` is the raw `tool` field of the parsed reply (any JSON value, as in
the source, which stores it untouched) and `arguments` is the
`JSON.stringify` of the `arguments` field. -/
structure EmulatedToolCall where
  name : Json
  arguments : String
deriving Repr

/-- A decoded choice message: either a plain assistant text turn (its
content is the raw `final` field for decoded replies, or the raw reply
string wrapped as a JSON string for the passthrough path) or an emulated
structured tool invocation. -/
inductive ChoiceMessage where
  | assistantText (content : Json) : ChoiceMessage
  | toolCall (fn : EmulatedToolCall) : ChoiceMessage
deriving Repr

inductive FinishReason where
  | stop : FinishReason
  | toolCalls : FinishReason
deriving Repr, DecidableEq

/-- The information-carrying part of the unified response choice built by
the provider (`Date.now()` ids and the zero usage placeholders omitted). -/
structure Choice where
  message : ChoiceMessage
  finishReason : FinishReason
deriving Repr

/-- The JSON-extraction fallback chain of `parseToolCallResponse`
(lines 171–197): parse the whole trimmed reply; on failure parse the
fenced-block capture when one exists (with no further fallback when that
parse fails, as the exception reaches the outer catch); otherwise parse
the greedy brace span when one exists; otherwise fail. -/
def extractJson (content : String) : Option Json :=
  let trimmed := jsTrim content
  match jsonParse trimmed with
  | some parsed => some parsed
  | none =>
    match fencedCapture trimmed with
    | some cap => jsonParse cap
    | none =>
      match braceSpanStr trimmed with
      | some span => jsonParse span
      | none => none

/-- The shape dispatch of `parseToolCallResponse` (lines 199–250) on the
parsed JSON: a truthy `tool` field together with a truthy `arguments`
field yields a tool-call choice; otherwise a truthy `final` field yields a
plain-text choice; otherwise the thrown "Cannot handle response" reaches
the catch and the decoder yields `none`.  A parsed `null` also yields
`none`: reading a property of `null` throws a `TypeError` that the same
catch swallows. -/
def handleParsed (parsed : Json) : Option Choice :=
  match parsed with
  | .null => none
  | _ =>
    let tool := parsed.getField "tool"
    let args := parsed.getField "arguments"
    if jsTruthy tool && jsTruthy args then
      some ⟨.toolCall ⟨tool.getD .null, jsonStringify (args.getD .null)⟩, .toolCalls⟩
    else if jsTruthy (parsed.getField "final") then
      some ⟨.assistantText ((parsed.getField "final").getD .null), .stop⟩
    else none

/-- `OllamaCloudProvider.parseToolCallResponse`: decode the model's free
text into a structured choice, or signal failure with `none` (every throw
inside the body is caught by the enclosing catch, which logs and returns
`null`; the function never propagates an exception). -/
def parseToolCallResponse (content : String) : Option Choice :=
  (extractJson content).bind handleParsed

/-- The response assembly of `OllamaCloudProvider.doSendRequest`
(lines 42–67) after a successful upstream exchange returning `content`:
when tools were requested and the decoder succeeds, its choice is
returned; otherwise the raw reply text becomes an ordinary assistant
message with finish reason `stop`. -/
def doSendRequestResult (hasTools : Bool) (content : String) : Choice :=
  if hasTools then
    match parseToolCallResponse content with
    | some choice => choice
    | none => ⟨.assistantText (.str content), .stop⟩
  else ⟨.assistantText (.str content), .stop⟩

/-! ### `KeyRotator` -/

/-- JS array read `keys[i]` with an `Int` index: `undefined` (`none`)
outside the bounds. -/
def jsIndex (keys : List String) (i : Int) : Option String :=
  if 0 ≤ i then keys[i.toNat]? else none

/-- `KeyRotator`: the credential pool and the rotation cursor.  The source
initializes `currentKeyIndex` to `-1`; the constructor rejects an empty
pool. -/
structure KeyRotator where
  keys : List String
  currentKeyIndex : Int
deriving Repr, DecidableEq

/-- The `KeyRotator` constructor: throws on an empty pool, otherwise
starts the cursor at `-1` (no current credential). -/
def KeyRotator.create (keys : List String) : Except String KeyRotator :=
  if keys.length = 0 then .error "KeyRotator requires at least one key"
  else .ok ⟨keys, -1⟩

/-- `getNextKey`: advance the cursor to `(cursor + 1) % keys.length` (JS
truncating remainder, `Int.tmod`) and return the credential there. -/
def KeyRotator.getNextKey (r : KeyRotator) : Option String × KeyRotator :=
  let idx := (r.currentKeyIndex + 1).tmod (r.keys.length : Int)
  (jsIndex r.keys idx, ⟨r.keys, idx⟩)

/-- `getCurrentKey`: read the credential at the cursor without advancing;
a plain array read, so before any rotation (`cursor = -1`) it evaluates to
`undefined` (`none`) rather than throwing. -/
def KeyRotator.getCurrentKey (r : KeyRotator) : Option String :=
  jsIndex r.keys r.currentKeyIndex

def KeyRotator.getCurrentIndex (r : KeyRotator) : Int :=
  r.currentKeyIndex

def KeyRotator.getKeyCount (r : KeyRotator) : Nat :=
  r.keys.length

/-- Apply `getNextKey` a number of times, keeping the final state. -/
def rotateN (r : KeyRotator) : Nat → KeyRotator
  | 0 => r
  | k + 1 => (rotateN r k).getNextKey.2

/-- The value returned by the `(k+1)`-th `getNextKey` call on `r`. -/
def nthKey (r : KeyRotator) (k : Nat) : Option String :=
  (rotateN r k).getNextKey.1

/-- The keys returned by the next `k` successive `getNextKey` calls. -/
def nextKeys (r : KeyRotator) : Nat → List (Option String)
  | 0 => []
  | k + 1 => r.getNextKey.1 :: nextKeys r.getNextKey.2 k

/-! ### `BaseProvider.sendRequest` — the quota-aware retry loop

The loop is parametrized by an outcome oracle `doSend`, giving for each
attempt number and presented credential the adapter result of that
invocation (`.ok` a response or `.error` a thrown error), and by the
adapter's `isQuotaExceededError` classifier.  Thrown values are modelled
as `Option ε` because the final `throw lastError` rethrows the stored
variable, which is still `null` when the loop body never ran. -/

/-- The outcome of one `sendRequest` call: the returned response or thrown
error, the credentials presented to the adapter in attempt order, and the
rotator state afterwards. -/
structure SendOutcome (ε ρ : Type) where
  result : Except (Option ε) ρ
  keysTried : List (Option String)
  rotator : KeyRotator
deriving Repr

/-- The `for` loop of `sendRequest` (lines 331–355) plus the final
`throw lastError` (line 359): `rem` counts the remaining attempts,
`attempt` numbers the current one, `tried` accumulates presented
credentials in reverse. -/
def sendRequestLoop (doSend : Nat → Option String → Except ε ρ) (isQuota : ε → Bool) :
    Nat → Nat → KeyRotator → Option ε → List (Option String) → SendOutcome ε ρ
  | 0, _, r, lastError, tried => ⟨.error lastError, tried.reverse, r⟩
  | rem + 1, attempt, r, _lastError, tried =>
    let next := r.getNextKey
    match doSend attempt next.1 with
    | .ok resp => ⟨.ok resp, (next.1 :: tried).reverse, next.2⟩
    | .error e =>
      if isQuota e then
        sendRequestLoop doSend isQuota rem (attempt + 1) next.2 (some e) (next.1 :: tried)
      else ⟨.error (some e), (next.1 :: tried).reverse, next.2⟩

/-- `BaseProvider.sendRequest`: try every credential at most once
(attempt budget `getKeyCount`), returning the first success, propagating a
fatal error immediately, and rethrowing the last recorded error when all
attempts failed as quota/transient. -/
def sendRequest (doSend : Nat → Option String → Except ε ρ) (isQuota : ε → Bool)
    (r : KeyRotator) : SendOutcome ε ρ :=
  sendRequestLoop doSend isQuota r.getKeyCount 0 r none []

/-- `BaseProvider.getUsage`: read the current credential (without
rotating) and delegate to the adapter's usage hook; the rotator is
untouched. -/
def getUsage {α : Type} (doGetUsage : Option String → α) (r : KeyRotator) :
    α × KeyRotator :=
  (doGetUsage r.getCurrentKey, r)

/-- `OllamaCloudProvider.doGetUsage`: the upstream has no usage endpoint;
always returns `null`. -/
def doGetUsageOllama : Option String → Option Json :=
  fun _ => none

/-! ### Error classification (`isQuotaExceededError`) -/

/-- The nested provider error payload attached by the adapters
(`wrappedError.provider_error`): the fields the classifiers read. -/
structure ProviderErrorPayload where
  status : Option Int
  errorText : Option String
deriving Repr, DecidableEq

/-- The JS error value as read by the classifiers: `message` (from
`Error`), `code` (read by the OpenAI classifier) and the nested
`provider_error` payload. -/
structure JsError where
  message : Option String
  code : Option String
  provider_error : Option ProviderErrorPayload
deriving Repr, DecidableEq

/-- Substring containment test on character lists (`String.prototype.includes`). -/
def startsWithChars : List Char → List Char → Bool
  | _, [] => true
  | [], _ :: _ => false
  | a :: as, b :: bs => a == b && startsWithChars as bs

def containsChars (hay pat : List Char) : Bool :=
  match hay with
  | [] => pat.isEmpty
  | _ :: rest => startsWithChars hay pat || containsChars rest pat

def strIncludes (s sub : String) : Bool :=
  containsChars s.toList sub.toList

/-- `OllamaCloudProvider.isQuotaExceededError` (lines 264–303): the
lowercased message is tested for the quota keywords, then the nested
status for 429 and the 502/503/504 family, then the message for the
upstream keywords, then the nested payload's `error` string
(case-sensitively) for `quota` / `rate limit`. -/
def ollamaIsQuotaExceededError (e : JsError) : Bool :=
  let errorMessage := jsToLower (e.message.getD "")
  let pstatus := e.provider_error.bind (·.status)
  if strIncludes errorMessage "quota" || strIncludes errorMessage "rate limit" ||
      strIncludes errorMessage "too many requests" then true
  else if pstatus == some 429 then true
  else if pstatus == some 502 || pstatus == some 503 || pstatus == some 504 then true
  else if strIncludes errorMessage "upstream error" || strIncludes errorMessage "bad gateway" ||
      strIncludes errorMessage "service unavailable" ||
      strIncludes errorMessage "gateway timeout" then true
  else if (match e.provider_error.bind (·.errorText) with
           | some s => strIncludes s "quota" || strIncludes s "rate limit"
           | none => false) then true
  else false

/-- `OpenAIProvider.isQuotaExceededError` (openai.ts lines 38–40):
transient exactly when `error.code === 'quota_exceeded'`. -/
def openaiIsQuotaExceededError (e : JsError) : Bool :=
  e.code == some "quota_exceeded"

/-! ### Tool-instruction injection (`injectToolInstruction`) -/

/-- A chat message as `injectToolInstruction` observes it (the spread in
the source preserves other fields untouched). -/
structure ChatMessage where
  role : String
  content : String
deriving Repr, DecidableEq

/-- `OllamaCloudProvider.injectToolInstruction` (lines 143–165): when any
message of the list has the system role, append the instruction to the
content of every system message; otherwise prepend a fresh system message
holding the instruction. -/
def injectToolInstruction (messages : List ChatMessage) (instruction : String) :
    List ChatMessage :=
  let hasSystemMessage := messages.any (fun m => m.role == "system")
  if hasSystemMessage then
    messages.map (fun m =>
      if m.role == "system" then ⟨m.role, m.content ++ "\n\n" ++ instruction⟩ else m)
  else
    ⟨"system", instruction⟩ :: messages

/-! ## Helper lemmas -/

theorem jsIndex_natCast (keys : List String) (m : Nat) :
    jsIndex keys (m : Int) = keys[m]? := by
  simp [jsIndex]

theorem getNextKey_mk (keys : List String) (c : Int) (hc : -1 ≤ c) :
    KeyRotator.getNextKey ⟨keys, c⟩ =
      (jsIndex keys ((c + 1) % (keys.length : Int)),
       ⟨keys, (c + 1) % (keys.length : Int)⟩) := by
  unfold KeyRotator.getNextKey
  dsimp only
  rw [Int.tmod_eq_emod (by omega) (Int.natCast_nonneg _)]

/-- Cursor positions of a freshly constructed rotator: after `k + 1`
rotations the cursor sits at `k % N`. -/
theorem rotateN_fresh (keys : List String) (hne : keys ≠ []) :
    ∀ k : Nat, rotateN ⟨keys, -1⟩ (k + 1) = ⟨keys, (k : Int) % (keys.length : Int)⟩ := by
  have hlen : (0 : Int) < (keys.length : Int) := by
    have := List.length_pos.mpr hne
    exact_mod_cast this
  intro k
  induction k with
  | zero =>
    show (rotateN ⟨keys, -1⟩ 0).getNextKey.2 = _
    rw [show rotateN ⟨keys, -1⟩ 0 = ⟨keys, -1⟩ from rfl,
      getNextKey_mk keys (-1) (le_refl _)]
    norm_num
  | succ k ih =>
    show (rotateN ⟨keys, -1⟩ (k + 1)).getNextKey.2 = _
    rw [ih, getNextKey_mk keys _ (le_trans (by norm_num) (Int.emod_nonneg _ (by omega)))]
    simp only [Prod.snd]
    congr 1
    rw [Int.emod_add_emod]
    push_cast
    ring_nf

/-- The value returned by the `(k+1)`-th rotation on a fresh rotator is the
pool entry at `k % N`. -/
theorem nthKey_fresh (keys : List String) (hne : keys ≠ []) (k : Nat) :
    nthKey ⟨keys, -1⟩ k = keys[k % keys.length]? := by
  have hlen : (0 : Int) < (keys.length : Int) := by
    have := List.length_pos.mpr hne
    exact_mod_cast this
  cases k with
  | zero =>
    show (KeyRotator.getNextKey ⟨keys, -1⟩).1 = _
    rw [getNextKey_mk keys (-1) (le_refl _)]
    norm_num
    simp [jsIndex]
  | succ k =>
    show (rotateN ⟨keys, -1⟩ (k + 1)).getNextKey.1 = _
    rw [rotateN_fresh keys hne k,
      getNextKey_mk keys _ (le_trans (by norm_num) (Int.emod_nonneg _ (by omega)))]
    simp only [Prod.fst]
    rw [Int.emod_add_emod,
      show ((k : Int) + 1) = (((k + 1 : Nat)) : Int) by push_cast; omega,
      ← Int.natCast_mod, jsIndex_natCast]

theorem getCurrentKey_getNextKey (r : KeyRotator) :
    r.getNextKey.2.getCurrentKey = r.getNextKey.1 := rfl

theorem create_ok (keys : List String) (r : KeyRotator)
    (h : KeyRotator.create keys = .ok r) : keys ≠ [] ∧ r = ⟨keys, -1⟩ := by
  unfold KeyRotator.create at h
  split at h
  · exact absurd h (by simp)
  · refine ⟨?_, by injection h with h; exact h.symm⟩
    intro hk
    subst hk
    simp_all

/-! ## The claims -/

/-- C3: on a freshly constructed `KeyRotator` over a non-empty pool of
size `N`, the first `N` calls to `getNextKey` return every credential
exactly once in pool order, the `(N+1)`-th call returns the same
credential as the first, and after `k + 1` calls the cursor sits at
`k % N` — each call advances it by one modulo `N`. -/
theorem C3_rotatorCycle (keys : List String) (r : KeyRotator)
    (h : KeyRotator.create keys = .ok r) :
    (List.range keys.length).map (nthKey r) = keys.map some ∧
    nthKey r keys.length = nthKey r 0 ∧
    (∀ k : Nat, (rotateN r (k + 1)).currentKeyIndex = (k : Int) % (keys.length : Int)) := by
  obtain ⟨hne, hr⟩ := create_ok keys r h
  subst hr
  have hlen : 0 < keys.length := List.length_pos.mpr hne
  refine ⟨?_, ?_, ?_⟩
  · apply List.ext_getElem (by simp)
    intro i h₁ h₂
    simp only [List.length_map, List.length_range] at h₁ h₂
    rw [List.getElem_map, List.getElem_map, List.getElem_range,
      nthKey_fresh keys hne i, Nat.mod_eq_of_lt h₁,
      List.getElem?_eq_getElem h₁]
  · rw [nthKey_fresh keys hne, nthKey_fresh keys hne, Nat.mod_self, Nat.zero_mod]
  · intro k
    rw [rotateN_fresh keys hne k]

/-- C3 witness: the cycle property evaluated on the concrete pool
`["a", "b", "c"]`. -/
theorem C3_rotatorCycle_witness :
    (List.range 3).map (nthKey ⟨["a", "b", "c"], -1⟩) = [some "a", some "b", some "c"] ∧
    nthKey ⟨["a", "b", "c"], -1⟩ 3 = nthKey ⟨["a", "b", "c"], -1⟩ 0 ∧
    (rotateN ⟨["a", "b", "c"], -1⟩ 2).currentKeyIndex = (1 : Int) % 3 := by
  obtain ⟨h₁, h₂, h₃⟩ := C3_rotatorCycle ["a", "b", "c"] ⟨["a", "b", "c"], -1⟩ rfl
  exact ⟨h₁, h₂, h₃ 1⟩

/-- C8 counterexample: on a freshly constructed rotator `getCurrentKey`
does not fail — the out-of-range array read `keys[-1]` evaluates to the
undefined value (`none`), which is exactly what the claim says must not
be returned. -/
theorem C8_noPreconditionError_counterexample :
    KeyRotator.create ["k1"] = .ok ⟨["k1"], -1⟩ ∧
    KeyRotator.getCurrentKey ⟨["k1"], -1⟩ = none :=
  ⟨rfl, rfl⟩

/-- C8 amended: on every freshly constructed `KeyRotator` (cursor `-1`),
`getCurrentKey` returns the undefined value (`none`) — a silent
out-of-bounds read, not a raised precondition error. -/
theorem C8_currentKeyUndefined (keys : List String) (r : KeyRotator)
    (h : KeyRotator.create keys = .ok r) : r.getCurrentKey = none := by
  obtain ⟨-, hr⟩ := create_ok keys r h
  subst hr
  rfl

/-- C8 amended witness. -/
theorem C8_currentKeyUndefined_witness :
    KeyRotator.getCurrentKey ⟨["a", "b"], -1⟩ = none :=
  C8_currentKeyUndefined ["a", "b"] ⟨["a", "b"], -1⟩ rfl

/-- C9: `getUsage` consults the credential at the *current* cursor
position — the one the most recent `getNextKey` returned, not the next
one — leaves the rotator untouched, and (for the OllamaCloud adapter,
whose upstream offers no usage endpoint) yields `null` rather than
failing.  Stated after `j + 1` rotations of a freshly constructed
rotator, for every `j`. -/
theorem C9_usageCurrentKey (keys : List String) (r : KeyRotator)
    (h : KeyRotator.create keys = .ok r) (j : Nat) :
    getUsage doGetUsageOllama (rotateN r (j + 1)) = (none, rotateN r (j + 1)) ∧
    (rotateN r (j + 1)).getCurrentKey = nthKey r j ∧
    (rotateN r (j + 1)).getCurrentKey = keys[j % keys.length]? := by
  obtain ⟨hne, hr⟩ := create_ok keys r h
  subst hr
  refine ⟨rfl, getCurrentKey_getNextKey _, ?_⟩
  rw [show (rotateN ⟨keys, -1⟩ (j + 1)).getCurrentKey = nthKey ⟨keys, -1⟩ j from
    getCurrentKey_getNextKey _, nthKey_fresh keys hne j]

/-- C9 witness: usage probe on the pool `["a", "b"]` after two rotations. -/
theorem C9_usageCurrentKey_witness :
    getUsage doGetUsageOllama (rotateN ⟨["a", "b"], -1⟩ 2) = (none, rotateN ⟨["a", "b"], -1⟩ 2) ∧
    (rotateN ⟨["a", "b"], -1⟩ 2).getCurrentKey = nthKey ⟨["a", "b"], -1⟩ 1 ∧
    (rotateN ⟨["a", "b"], -1⟩ 2).getCurrentKey = ["a", "b"][1 % 2]? :=
  C9_usageCurrentKey ["a", "b"] ⟨["a", "b"], -1⟩ rfl 1

/-! ## The retry loop (C1, C2) -/

theorem rotateN_succ_shift (r : KeyRotator) : ∀ k : Nat,
    rotateN r (k + 1) = rotateN r.getNextKey.2 k := by
  intro k
  induction k with
  | zero => rfl
  | succ k ih =>
    show (rotateN r (k + 1)).getNextKey.2 = _
    rw [ih]
    rfl

theorem nextKeys_length (r : KeyRotator) : ∀ m : Nat, (nextKeys r m).length = m := by
  intro m
  induction m generalizing r with
  | zero => rfl
  | succ m ih => simp [nextKeys, ih]

/-- Behaviour of the retry loop when every attempt fails with an error the
classifier marks transient: all `rem` attempts run, the presented
credentials are the next `rem` rotations, and the loop ends by rethrowing
the error recorded last. -/
theorem sendRequestLoop_allTransient {ε ρ : Type}
    (doSend : Nat → Option String → Except ε ρ) (isQuota : ε → Bool) (err : Nat → ε)
    (hsend : ∀ i key, doSend i key = .error (err i))
    (hq : ∀ i, isQuota (err i) = true) :
    ∀ (rem attempt : Nat) (r : KeyRotator) (lastErr : Option ε)
      (tried : List (Option String)),
      sendRequestLoop doSend isQuota rem attempt r lastErr tried =
        ⟨.error (if rem = 0 then lastErr else some (err (attempt + rem - 1))),
         tried.reverse ++ nextKeys r rem, rotateN r rem⟩ := by
  intro rem
  induction rem with
  | zero =>
    intro attempt r lastErr tried
    simp [sendRequestLoop, nextKeys, rotateN]
  | succ rem ih =>
    intro attempt r lastErr tried
    rw [show sendRequestLoop doSend isQuota (rem + 1) attempt r lastErr tried =
        (match doSend attempt r.getNextKey.1 with
         | .ok resp => ⟨.ok resp, (r.getNextKey.1 :: tried).reverse, r.getNextKey.2⟩
         | .error e =>
           if isQuota e then
             sendRequestLoop doSend isQuota rem (attempt + 1) r.getNextKey.2
               (some e) (r.getNextKey.1 :: tried)
           else ⟨.error (some e), (r.getNextKey.1 :: tried).reverse, r.getNextKey.2⟩)
      from rfl, hsend attempt]
    dsimp only
    rw [hq attempt, if_pos rfl]
    simp only [ih (attempt + 1) r.getNextKey.2 (some (err attempt)) (r.getNextKey.1 :: tried)]
    rw [← rotateN_succ_shift r rem]
    refine congrArg₂ (SendOutcome.mk · · _) ?_ ?_
    · rcases rem with - | m
      · simp
      · have : attempt + 1 + (m + 1) - 1 = attempt + (m + 1 + 1) - 1 := by omega
        simp [this]
    · rw [List.reverse_cons, List.append_assoc]
      rfl

/-- C1 counterexample to the tagging clause: with a pool of size 1, the
run in which the sole credential fails transiently (so that every
credential is exhausted) rethrows the recorded error unchanged —
byte-identical to the outcome of a run in which the same error is
classified fatal.  The propagated error carries no tag, so a caller
cannot distinguish "all credentials exhausted" from a single fatal
failure. -/
theorem C1_noExhaustionTag_counterexample :
    (sendRequest (fun _ _ => .error "quota exceeded") (fun _ => true)
      ⟨["k1"], -1⟩ : SendOutcome String Unit).keysTried = [some "k1"] ∧
    (sendRequest (fun _ _ => .error "quota exceeded") (fun _ => true)
      ⟨["k1"], -1⟩ : SendOutcome String Unit).result = .error (some "quota exceeded") ∧
    (sendRequest (fun _ _ => .error "quota exceeded") (fun _ => false)
      ⟨["k1"], -1⟩ : SendOutcome String Unit).result = .error (some "quota exceeded") :=
  ⟨rfl, rfl, rfl⟩

/-- The credentials presented by successive rotations, as pool reads at
indices `(c + 1 + i) % N`. -/
theorem nextKeys_formula (keys : List String) (hne : keys ≠ []) :
    ∀ (m : Nat) (c : Int), -1 ≤ c →
      nextKeys ⟨keys, c⟩ m =
        (List.range m).map
          (fun (i : Nat) => jsIndex keys ((c + 1 + (i : Int)) % (keys.length : Int))) := by
  have hlen : (0 : Int) < (keys.length : Int) := by
    have := List.length_pos.mpr hne
    exact_mod_cast this
  intro m
  induction m with
  | zero => intro c _; rfl
  | succ m ih =>
    intro c hc
    show (KeyRotator.getNextKey ⟨keys, c⟩).1 ::
        nextKeys (KeyRotator.getNextKey ⟨keys, c⟩).2 m = _
    rw [getNextKey_mk keys c hc]
    dsimp only
    rw [ih ((c + 1) % (keys.length : Int))
      (le_trans (by norm_num) (Int.emod_nonneg _ (by omega))),
      List.range_succ_eq_map, List.map_cons, List.map_map]
    refine congrArg₂ (· :: ·) (by norm_num) (List.map_congr_left ?_)
    intro i _
    show jsIndex keys (((c + 1) % (keys.length : Int) + 1 + (i : Int)) % _) = _
    rw [show ((c + 1) % (keys.length : Int) + 1 + (i : Int)) =
        ((c + 1) % (keys.length : Int) + (1 + (i : Int))) by ring,
      Int.emod_add_emod]
    congr 1
    push_cast
    congr 1
    omega

/-- Over one full cycle the presented credentials are a rotation of the
pool. -/
theorem nextKeys_eq_rotate (keys : List String) (c : Int) (hne : keys ≠ [])
    (hc : -1 ≤ c) :
    nextKeys ⟨keys, c⟩ keys.length =
      (keys.rotate ((c + 1).toNat % keys.length)).map some := by
  have hlen : 0 < keys.length := List.length_pos.mpr hne
  have hc1 : (0 : Int) ≤ c + 1 := by omega
  apply List.ext_getElem?
  intro i
  by_cases hi : i < keys.length
  · rw [nextKeys_formula keys hne keys.length c hc,
      List.getElem?_map, List.getElem?_map,
      List.getElem?_range hi,
      List.getElem?_eq_getElem (by rw [List.length_rotate]; exact hi)]
    simp only [Option.map_some']
    have hcast : (c + 1 + (i : Int)) = (((c + 1).toNat + i : Nat) : Int) := by
      push_cast
      omega
    rw [hcast, ← Int.natCast_mod, jsIndex_natCast]
    have hmod : ((c + 1).toNat + i) % keys.length < keys.length :=
      Nat.mod_lt _ hlen
    rw [List.getElem?_eq_getElem hmod]
    congr 1
    rw [List.getElem_rotate]
    have hAB : (i + (c + 1).toNat % keys.length) % keys.length =
        ((c + 1).toNat + i) % keys.length := by
      rw [Nat.add_comm i, Nat.mod_add_mod]
    simp only [hAB]
  · rw [List.getElem?_eq_none, List.getElem?_eq_none]
    · rw [List.length_map, List.length_rotate]
      omega
    · rw [nextKeys_length]
      omega

/-- C1 (amended): when every adapter invocation of one `sendRequest` call
fails with an error classified quota/transient, the loop makes exactly
`N` attempts — presenting every credential of the pool exactly once (a
permutation of the pool) — and then rethrows the last recorded transient
error *unchanged*.  No exhaustion tag is attached (see the
counterexample), so the propagated error alone cannot tell exhaustion
from a single fatal failure. -/
theorem C1_retryAllTransient {ε ρ : Type}
    (doSend : Nat → Option String → Except ε ρ) (isQuota : ε → Bool) (err : Nat → ε)
    (r : KeyRotator) (hne : r.keys ≠ []) (hcur : -1 ≤ r.currentKeyIndex)
    (hsend : ∀ i key, doSend i key = .error (err i))
    (hq : ∀ i, isQuota (err i) = true) :
    (sendRequest doSend isQuota r).keysTried.length = r.keys.length ∧
    (sendRequest doSend isQuota r).keysTried.Perm (r.keys.map some) ∧
    (sendRequest doSend isQuota r).result = .error (some (err (r.keys.length - 1))) := by
  have hlen : 0 < r.keys.length := List.length_pos.mpr hne
  obtain ⟨keys, c⟩ := r
  simp only at hne hcur hlen ⊢
  have hloop := sendRequestLoop_allTransient doSend isQuota err hsend hq
    keys.length 0 ⟨keys, c⟩ none []
  unfold sendRequest
  rw [show KeyRotator.getKeyCount ⟨keys, c⟩ = keys.length from rfl, hloop]
  dsimp only
  rw [if_neg (by omega)]
  simp only [List.reverse_nil, List.nil_append]
  rw [nextKeys_eq_rotate keys c hne hcur]
  refine ⟨by simp, ?_, by rw [Nat.zero_add]⟩
  exact (List.rotate_perm keys _).map some

/-- C1 witness: a pool of two credentials, every attempt failing with the
transient error equal to its attempt number. -/
theorem C1_retryAllTransient_witness :
    (sendRequest (fun i _ => .error i) (fun _ => true)
      ⟨["k1", "k2"], -1⟩ : SendOutcome Nat Unit).keysTried.length = 2 ∧
    (sendRequest (fun i _ => .error i) (fun _ => true)
      ⟨["k1", "k2"], -1⟩ : SendOutcome Nat Unit).keysTried.Perm
        (["k1", "k2"].map some) ∧
    (sendRequest (fun i _ => .error i) (fun _ => true)
      ⟨["k1", "k2"], -1⟩ : SendOutcome Nat Unit).result = .error (some 1) :=
  C1_retryAllTransient (fun i _ => .error i) (fun _ => true) (fun i => i)
    ⟨["k1", "k2"], -1⟩ (by simp) (by norm_num)
    (fun _ _ => rfl) (fun _ => rfl)

/-- C2: when the first adapter invocation fails with an error the
classifier marks fatal, `sendRequest` stops after exactly one attempt —
the adapter is never invoked with a remaining credential — and propagates
that error immediately. -/
theorem C2_fatalShortCircuit {ε ρ : Type}
    (doSend : Nat → Option String → Except ε ρ) (isQuota : ε → Bool)
    (r : KeyRotator) (e : ε) (hne : r.keys ≠ [])
    (hsend : doSend 0 r.getNextKey.1 = .error e)
    (hfatal : isQuota e = false) :
    sendRequest doSend isQuota r =
      ⟨.error (some e), [r.getNextKey.1], r.getNextKey.2⟩ := by
  obtain ⟨m, hm⟩ : ∃ m, r.keys.length = m + 1 := by
    cases hk : r.keys with
    | nil => exact absurd hk hne
    | cons a as => exact ⟨as.length, by simp [hk]⟩
  unfold sendRequest
  rw [show r.getKeyCount = r.keys.length from rfl, hm,
    show sendRequestLoop doSend isQuota (m + 1) 0 r none [] =
      (match doSend 0 r.getNextKey.1 with
       | .ok resp => ⟨.ok resp, (r.getNextKey.1 :: []).reverse, r.getNextKey.2⟩
       | .error e =>
         if isQuota e then
           sendRequestLoop doSend isQuota m (0 + 1) r.getNextKey.2
             (some e) (r.getNextKey.1 :: [])
         else ⟨.error (some e), (r.getNextKey.1 :: []).reverse, r.getNextKey.2⟩)
    from rfl, hsend]
  dsimp only
  rw [hfatal]
  rfl

/-- C2 witness: a fatal failure on the first credential of a two-credential
pool. -/
theorem C2_fatalShortCircuit_witness :
    (sendRequest (fun _ _ => .error "bad request") (fun _ => false)
      ⟨["a", "b"], -1⟩ : SendOutcome String Unit) =
      ⟨.error (some "bad request"), [some "a"], ⟨["a", "b"], 0⟩⟩ :=
  C2_fatalShortCircuit (fun _ _ => .error "bad request") (fun _ => false)
    ⟨["a", "b"], -1⟩ "bad request" (by simp) rfl rfl

/-! ## Tool-instruction injection (C5) -/

/-- C5 counterexample: for a list whose system message is *not* leading,
the claim's description fails — the list contains a system message, yet
the instruction is neither appended to a leading system message (the
output still begins with the caller's user message) nor inserted as a new
leading system message; it is appended to the non-leading system message
instead. -/
theorem C5_leadingSystem_counterexample :
    injectToolInstruction [⟨"user", "u"⟩, ⟨"system", "s"⟩] "INSTR"
      = [⟨"user", "u"⟩, ⟨"system", "s\n\nINSTR"⟩] ∧
    [(⟨"user", "u"⟩ : ChatMessage), ⟨"system", "s"⟩].any
      (fun m => m.role == "system") = true ∧
    (injectToolInstruction [⟨"user", "u"⟩, ⟨"system", "s"⟩] "INSTR").head?.map (·.role)
      = some "user" :=
  ⟨rfl, rfl, rfl⟩

/-- C5 (amended): when the message list contains a system message
(anywhere, not necessarily leading), the instruction is appended to the
content of *every* system message, every non-system message is untouched,
and the length, order and system-message count of the list are preserved;
when no system message exists, exactly one new system message carrying the
instruction is prepended and the remaining list is the caller's, verbatim. -/
theorem C5_injectInstruction (messages : List ChatMessage) (instruction : String) :
    (messages.any (fun m => m.role == "system") = true →
      (injectToolInstruction messages instruction).length = messages.length ∧
      (∀ i : Nat,
        (injectToolInstruction messages instruction)[i]? =
          messages[i]?.map (fun m =>
            if m.role == "system" then ⟨m.role, m.content ++ "\n\n" ++ instruction⟩
            else m)) ∧
      (injectToolInstruction messages instruction).countP (fun m => m.role == "system") =
        messages.countP (fun m => m.role == "system")) ∧
    (messages.any (fun m => m.role == "system") = false →
      injectToolInstruction messages instruction = ⟨"system", instruction⟩ :: messages ∧
      (injectToolInstruction messages instruction).countP (fun m => m.role == "system") = 1) := by
  constructor
  · intro h
    have hout : injectToolInstruction messages instruction =
        messages.map (fun m =>
          if m.role == "system" then ⟨m.role, m.content ++ "\n\n" ++ instruction⟩
          else m) := by
      unfold injectToolInstruction
      rw [h]
      rfl
    refine ⟨by rw [hout, List.length_map], ?_, ?_⟩
    · intro i
      rw [hout, List.getElem?_map]
    · rw [hout, List.countP_map]
      refine List.countP_congr ?_
      intro m _
      by_cases hm : m.role == "system"
      · simp [Function.comp, hm]
      · simp [Function.comp, hm]
  · intro h
    have hout : injectToolInstruction messages instruction =
        ⟨"system", instruction⟩ :: messages := by
      unfold injectToolInstruction
      rw [h]
      rfl
    refine ⟨hout, ?_⟩
    rw [hout, List.countP_cons]
    have hz : messages.countP (fun m => m.role == "system") = 0 :=
      List.countP_eq_zero.mpr (List.any_eq_false.mp h)
    rw [hz]
    rfl

/-- C5 amended witness: the two branches at concrete inputs. -/
theorem C5_injectInstruction_witness :
    (injectToolInstruction [⟨"system", "s"⟩, ⟨"user", "u"⟩] "I").length = 2 ∧
    injectToolInstruction [⟨"user", "u"⟩] "I" = [⟨"system", "I"⟩, ⟨"user", "u"⟩] :=
  ⟨((C5_injectInstruction [⟨"system", "s"⟩, ⟨"user", "u"⟩] "I").1 rfl).1,
   ((C5_injectInstruction [⟨"user", "u"⟩] "I").2 rfl).1⟩

/-! ## Error classification (C7) -/

/-- Bool reduction of a five-way if-chain with constant branches. -/
theorem if_chain5 (a b c d e : Bool) :
    (if a then true
     else if b then true
     else if c then true
     else if d then true
     else if e then true
     else false) = (a || b || c || d || e) := by
  cases a <;> cases b <;> cases c <;> cases d <;> cases e <;> rfl

/-- The classifier the claim describes, written from the claim's words:
transient exactly when the error carries HTTP status 429, 502, 503 or
504, or its (lowercased) error text or nested provider error payload
contains one of the seven listed substrings. -/
def claimC7Transient (e : JsError) : Bool :=
  (e.provider_error.bind (·.status) == some 429 ||
   e.provider_error.bind (·.status) == some 502 ||
   e.provider_error.bind (·.status) == some 503 ||
   e.provider_error.bind (·.status) == some 504) ||
  (["quota", "rate limit", "too many requests", "upstream error", "bad gateway",
    "service unavailable", "gateway timeout"].any (fun sub =>
      strIncludes (jsToLower (e.message.getD "")) sub ||
      strIncludes ((e.provider_error.bind (·.errorText)).getD "") sub))

/-- C7 counterexample: the claim quantifies over *every* adapter, but the
OpenAI adapter's classifier ignores statuses and substrings entirely — an
error carrying HTTP status 429 and the message "rate limit" (transient
under the claim's rule) is classified fatal by the OpenAI adapter. -/
theorem C7_uniformClassifier_counterexample :
    claimC7Transient ⟨some "rate limit", none, some ⟨some 429, none⟩⟩ = true ∧
    openaiIsQuotaExceededError ⟨some "rate limit", none, some ⟨some 429, none⟩⟩ = false :=
  ⟨rfl, rfl⟩

/-- The OllamaCloud classification rule as a flat disjunction, written
from the amended claim: the lowercased message contains a quota keyword;
or the nested status is 429, or 502/503/504; or the lowercased message
contains an upstream keyword; or the nested payload's error string
contains (case-sensitively) `quota` or `rate limit`. -/
def ollamaTransientSpec (e : JsError) : Bool :=
  (strIncludes (jsToLower (e.message.getD "")) "quota" ||
    strIncludes (jsToLower (e.message.getD "")) "rate limit" ||
    strIncludes (jsToLower (e.message.getD "")) "too many requests") ||
  (e.provider_error.bind (·.status) == some 429) ||
  (e.provider_error.bind (·.status) == some 502 ||
    e.provider_error.bind (·.status) == some 503 ||
    e.provider_error.bind (·.status) == some 504) ||
  (strIncludes (jsToLower (e.message.getD "")) "upstream error" ||
    strIncludes (jsToLower (e.message.getD "")) "bad gateway" ||
    strIncludes (jsToLower (e.message.getD "")) "service unavailable" ||
    strIncludes (jsToLower (e.message.getD "")) "gateway timeout") ||
  (match e.provider_error.bind (·.errorText) with
   | some s => strIncludes s "quota" || strIncludes s "rate limit"
   | none => false)

/-- C7 (amended): each adapter has its own classifier.  The OllamaCloud
classifier marks an error transient exactly under the flat rule
`ollamaTransientSpec` (message keywords — lowercased; nested status
429/502/503/504; nested payload error string containing `quota` or
`rate limit` case-sensitively); the OpenAI classifier marks an error
transient exactly when its `code` is `quota_exceeded`.  Everything else
is fatal for the respective adapter. -/
theorem C7_classifierCharacterization (e : JsError) :
    ollamaIsQuotaExceededError e = ollamaTransientSpec e ∧
    openaiIsQuotaExceededError e = (e.code == some "quota_exceeded") := by
  constructor
  · unfold ollamaIsQuotaExceededError ollamaTransientSpec
    exact if_chain5 _ _ _ _ _
  · rfl

/-! ## The tool-call decoder (C4, C6, C10) -/

/-- C4 counterexample to the field-presence clause: the reply
`{"tool":"","arguments":{"q":"w"}}` parses to a JSON object carrying both
a `tool` and an `arguments` field, yet the decoder yields `none` (decode
failure) rather than a tool-invocation choice, because the empty-string
`tool` value is falsy and the source tests the fields for truthiness, not
presence. -/
theorem C4_fieldPresence_counterexample :
    jsonParse "\x7b\"tool\":\"\",\"arguments\":\x7b\"q\":\"w\"\x7d\x7d"
      = some (.obj [("tool", .str ""), ("arguments", .obj [("q", .str "w")])]) ∧
    parseToolCallResponse "\x7b\"tool\":\"\",\"arguments\":\x7b\"q\":\"w\"\x7d\x7d" = none :=
  ⟨rfl, rfl⟩

/-- C4 (amended): decoding the model output
`{"tool":"websearch","arguments":{"q":"weather"}}` yields a structured
tool-invocation choice with function name `websearch`, arguments
`{"q":"weather"}` and finish reason tool-calls; more generally, parsed
JSON whose `tool` and `arguments` fields are both present *and truthy*
yields a tool-invocation choice, otherwise a truthy `final` field yields
a plain-text assistant choice with finish reason stop, and any other
parsed shape is a decode failure (`none`). -/
theorem C4_decodeDispatch :
    parseToolCallResponse "\x7b\"tool\":\"websearch\",\"arguments\":\x7b\"q\":\"weather\"\x7d\x7d"
      = some ⟨.toolCall ⟨.str "websearch",
          jsonStringify (.obj [("q", .str "weather")])⟩, .toolCalls⟩ ∧
    (∀ parsed : Json, jsTruthy (parsed.getField "tool") = true →
      jsTruthy (parsed.getField "arguments") = true →
      handleParsed parsed = some ⟨.toolCall ⟨(parsed.getField "tool").getD .null,
        jsonStringify ((parsed.getField "arguments").getD .null)⟩, .toolCalls⟩) ∧
    (∀ parsed : Json,
      (jsTruthy (parsed.getField "tool") && jsTruthy (parsed.getField "arguments")) = false →
      jsTruthy (parsed.getField "final") = true →
      handleParsed parsed =
        some ⟨.assistantText ((parsed.getField "final").getD .null), .stop⟩) ∧
    (∀ parsed : Json,
      (jsTruthy (parsed.getField "tool") && jsTruthy (parsed.getField "arguments")) = false →
      jsTruthy (parsed.getField "final") = false →
      handleParsed parsed = none) := by
  refine ⟨rfl, ?_, ?_, ?_⟩
  · intro parsed htool hargs
    cases parsed with
    | obj fields =>
      simp only [handleParsed]
      rw [htool, hargs]
      rfl
    | null => simp [Json.getField, jsTruthy] at htool
    | bool b => simp [Json.getField, jsTruthy] at htool
    | num n => simp [Json.getField, jsTruthy] at htool
    | str s => simp [Json.getField, jsTruthy] at htool
    | arr xs => simp [Json.getField, jsTruthy] at htool
  · intro parsed hcond hfinal
    cases parsed with
    | obj fields =>
      simp only [handleParsed]
      rw [hcond, hfinal]
      rfl
    | null => simp [Json.getField, jsTruthy] at hfinal
    | bool b => simp [Json.getField, jsTruthy] at hfinal
    | num n => simp [Json.getField, jsTruthy] at hfinal
    | str s => simp [Json.getField, jsTruthy] at hfinal
    | arr xs => simp [Json.getField, jsTruthy] at hfinal
  · intro parsed hcond hfinal
    cases parsed with
    | obj fields =>
      simp only [handleParsed]
      rw [hcond, hfinal]
      rfl
    | null => rfl
    | bool b => simp [handleParsed, Json.getField, jsTruthy]
    | num n => simp [handleParsed, Json.getField, jsTruthy]
    | str s => simp [handleParsed, Json.getField, jsTruthy]
    | arr xs => simp [handleParsed, Json.getField, jsTruthy]

/-- C4 amended witness: the three dispatch branches at concrete parsed
values. -/
theorem C4_decodeDispatch_witness :
    handleParsed (.obj [("tool", .bool true), ("arguments", .num 3)])
      = some ⟨.toolCall ⟨.bool true, "3"⟩, .toolCalls⟩ ∧
    handleParsed (.obj [("final", .num 2)])
      = some ⟨.assistantText (.num 2), .stop⟩ ∧
    handleParsed (.obj [("x", .num 1)]) = none :=
  ⟨C4_decodeDispatch.2.1 _ rfl rfl,
   C4_decodeDispatch.2.2.1 _ rfl rfl,
   C4_decodeDispatch.2.2.2 _ rfl rfl⟩

/-- C6: when no step of the fallback chain yields parseable JSON — the
whole trimmed reply does not parse, the fenced-block capture (if any)
does not parse, and the brace span (if any) does not parse — the decoder
signals failure by returning `none` (it is a total function: every inner
throw is caught), and the caller returns the raw reply text as an
ordinary plain-text assistant choice with finish reason stop. -/
theorem C6_unparseableDegrades (content : String)
    (h1 : jsonParse (jsTrim content) = none)
    (h2 : ∀ cap, fencedCapture (jsTrim content) = some cap → jsonParse cap = none)
    (h3 : ∀ span, braceSpanStr (jsTrim content) = some span → jsonParse span = none) :
    parseToolCallResponse content = none ∧
    doSendRequestResult true content = ⟨.assistantText (.str content), .stop⟩ := by
  have hx : extractJson content = none := by
    simp only [extractJson, h1]
    cases hc : fencedCapture (jsTrim content) with
    | some cap => exact h2 cap hc
    | none =>
      cases hb : braceSpanStr (jsTrim content) with
      | some span => exact h3 span hb
      | none => rfl
  have hp : parseToolCallResponse content = none := by
    unfold parseToolCallResponse
    rw [hx]
    rfl
  refine ⟨hp, ?_⟩
  simp only [doSendRequestResult, hp, if_true]

/-- C6 witness: a plain-prose reply with no JSON anywhere. -/
theorem C6_unparseableDegrades_witness :
    parseToolCallResponse "I am sorry, plain prose only." = none ∧
    doSendRequestResult true "I am sorry, plain prose only."
      = ⟨.assistantText (.str "I am sorry, plain prose only."), .stop⟩ := by
  have hf : fencedCapture (jsTrim "I am sorry, plain prose only.") = none := rfl
  have hb : braceSpanStr (jsTrim "I am sorry, plain prose only.") = none := rfl
  exact C6_unparseableDegrades "I am sorry, plain prose only." rfl
    (fun cap h => Option.noConfusion (hf ▸ h))
    (fun span h => Option.noConfusion (hb ▸ h))

/-- C10: the syntactically valid emulation output `{"final": ""}` — and
in general any object whose `final` field holds a falsy JSON value — is
treated as a decode failure because the source tests `parsed.final` for
truthiness rather than presence; the decoder returns `none` and the
caller returns the raw JSON text as a plain assistant message instead of
a plain-text choice with the empty final content. -/
theorem C10_falsyFinalDecodeFailure :
    parseToolCallResponse "\x7b\"final\": \"\"\x7d" = none ∧
    doSendRequestResult true "\x7b\"final\": \"\"\x7d"
      = ⟨.assistantText (.str "\x7b\"final\": \"\"\x7d"), .stop⟩ ∧
    (∀ v : Json, jsTruthy (some v) = false →
      handleParsed (.obj [("final", v)]) = none) := by
  refine ⟨rfl, rfl, ?_⟩
  intro v hv
  simp only [handleParsed]
  rw [show (Json.obj [("final", v)]).getField "tool" = none from rfl,
    show (Json.obj [("final", v)]).getField "arguments" = none from rfl,
    show (Json.obj [("final", v)]).getField "final" = some v from rfl, hv]
  rfl

/-- C10 witness: the general falsy-`final` clause at the empty string. -/
theorem C10_falsyFinalDecodeFailure_witness :
    handleParsed (.obj [("final", .str "")]) = none :=
  C10_falsyFinalDecodeFailure.2.2 (.str "") rfl

end LlmWrapper
